import Mathlib

/- Verification of the clue-factory mechanical validators (src/mechanic.py)
   and the rule-based Ximenean auditor (src/auditor.py).

   Modelling conventions:
   * Python strings are lists of characters; `String.toList` is used to write
     concrete literals.
   * Python floats are modelled as rationals; the score arithmetic here is a
     handful of exact decimal constants, so no rounding behaviour is relevant
     to the stated properties.
   * The optional enchant dictionary backend (module global `_enchant_dict`,
     and `XimeneanAuditor.enchant_dict`) is modelled as an explicit
     `Option (List Char → Bool)` parameter; `none` is the configuration in
     which no dictionary backend is available.
   * Human-readable `message`/`details` feedback strings are elided; only the
     fields the properties speak about (validity flags, the hidden-word
     position, the numeric scores) are retained. -/

namespace ClueFactory

/-- Test for an ASCII uppercase letter, the regex class A-Z. -/
def isAsciiUpperCh (c : Char) : Bool := decide (65 ≤ c.toNat ∧ c.toNat ≤ 90)

/-- Test for an ASCII lowercase letter, the regex class a-z. -/
def isAsciiLowerCh (c : Char) : Bool := decide (97 ≤ c.toNat ∧ c.toNat ≤ 122)

/-- Test for an ASCII letter, the regex class a-zA-Z used by `normalize_text`. -/
def isAsciiLetterCh (c : Char) : Bool := isAsciiUpperCh c || isAsciiLowerCh c

/-- ASCII lowering of one character, as Python `str.lower` acts on A-Z. -/
def toLowerCh (c : Char) : Char :=
  if isAsciiUpperCh c then Char.ofNat (c.toNat + 32) else c

/-- ASCII uppering of one character, as Python `str.upper` acts on a-z. -/
def toUpperCh (c : Char) : Char :=
  if isAsciiLowerCh c then Char.ofNat (c.toNat - 32) else c

/-- Python `s.lower()` on a string, restricted to ASCII case mapping. -/
def lowerStr (s : List Char) : List Char := s.map toLowerCh

/-- Python `s.upper()` on a string, restricted to ASCII case mapping. -/
def upperStr (s : List Char) : List Char := s.map toUpperCh

/-- The whitespace class of Python `str.split()`:
    space, tab, newline, carriage return, vertical tab, form feed. -/
def isPySpaceCh (c : Char) : Bool :=
  decide (c.toNat = 32 ∨ c.toNat = 9 ∨ c.toNat = 10 ∨
          c.toNat = 13 ∨ c.toNat = 11 ∨ c.toNat = 12)

/-- The regex word-character class `\w` restricted to ASCII: a-z, A-Z, 0-9, underscore. -/
def isWordCh (c : Char) : Bool :=
  isAsciiLetterCh c || c.isDigit || c == '_'

/-- The five lowercase vowels, the regex class aeiou in `is_word`. -/
def isVowelCh (c : Char) : Bool :=
  c == 'a' || c == 'e' || c == 'i' || c == 'o' || c == 'u'

/-- The 21-letter consonant class bcdfghjklmnpqrstvwxyz of `is_word`,
    written as lowercase-letter-and-not-vowel. -/
def isConsonantCh (c : Char) : Bool := isAsciiLowerCh c && !(isVowelCh c)

/-- Maximal runs of characters satisfying `keep`; `acc` carries the current
    run reversed.  This is the common shape of Python `str.split()` (runs of
    non-whitespace) and of counting `findall` word runs. -/
def runsGo (keep : Char → Bool) : List Char → List Char → List (List Char)
  | [], acc => if acc.isEmpty then [] else [acc.reverse]
  | c :: t, acc =>
    if keep c then runsGo keep t (c :: acc)
    else if acc.isEmpty then runsGo keep t []
    else acc.reverse :: runsGo keep t []

/-- Maximal runs of characters satisfying `keep` inside a string. -/
def runsBy (keep : Char → Bool) (s : List Char) : List (List Char) :=
  runsGo keep s []

/-- Python `str.split()` with no arguments: maximal runs of non-whitespace. -/
def splitWs (s : List Char) : List (List Char) :=
  runsBy (fun c => !isPySpaceCh c) s

/-- Whether `needle` is a prefix of `hay` (Boolean, by direct recursion). -/
def startsWithL : List Char → List Char → Bool
  | _, [] => true
  | [], _ :: _ => false
  | h :: ht, n :: nt => h == n && startsWithL ht nt

/-- Python substring membership `needle in hay` for strings: `needle` occurs
    contiguously in `hay` (the empty needle always occurs). -/
def containsSubstr : List Char → List Char → Bool
  | hay, needle =>
    match hay with
    | [] => startsWithL [] needle
    | _ :: t => startsWithL hay needle || containsSubstr t needle

/-- Python `hay.index(needle)` as an option: index of the first occurrence of
    `needle` as a contiguous substring of `hay`. -/
def findSubstr : List Char → List Char → Option Nat
  | hay, needle =>
    match hay with
    | [] => if startsWithL [] needle then some 0 else none
    | _ :: t =>
      if startsWithL hay needle then some 0
      else (findSubstr t needle).map (· + 1)

/-- A regex `\b` holds at a position whose neighbouring character on the
    relevant side is absent (string edge) or not a word character.  `prev` is
    that neighbour, `none` at an edge. -/
def boundaryOk : Option Char → Bool
  | none => true
  | some c => !isWordCh c

/-- Scan for a whole-word occurrence of `term` (regex `\b term \b` as compiled
    by `_check_direction`, with `term`'s own characters taken literally):
    `prev` is the character before the current position. -/
def wholeWordGo (term : List Char) : Option Char → List Char → Bool
  | prev, [] => boundaryOk prev && startsWithL [] term
  | prev, c :: t =>
    (boundaryOk prev && startsWithL (c :: t) term &&
      boundaryOk (List.head? (List.drop term.length (c :: t)))) ||
    wholeWordGo term (some c) t

/-- Whole-word (word-boundary delimited) occurrence of `term` in `text`. -/
def containsWholeWord (text term : List Char) : Bool :=
  wholeWordGo term none text

/-- ValidationResult of mechanic.py, keeping the `is_valid` flag and (for the
    hidden-word validator) the reported `position` detail. -/
structure VRes where
  is_valid : Bool
  position : Option (Nat × Nat) := none

/-- normalize_text of mechanic.py: drop every character that is not an ASCII
    letter, then lowercase. -/
def normalize_text (text : List Char) : List Char :=
  (text.filter isAsciiLetterCh).map toLowerCh

/-- check_identity_constraint of mechanic.py: the normalized answer, and (for
    raw answers longer than 3 characters) its +s, +ed, +ing inflections plus,
    when the normalized answer ends in e, the drop-e +ed and +ing forms, must not occur as
    substrings of the normalized fodder. -/
def check_identity_constraint (fodder answer : List Char) : VRes :=
  let normalized_fodder := normalize_text fodder
  let normalized_answer := normalize_text answer
  if containsSubstr normalized_fodder normalized_answer then ⟨false, none⟩
  else
    let variants : List (List Char) :=
      if 3 < answer.length then
        [normalized_answer ++ ['s'],
         normalized_answer ++ ['e', 'd'],
         normalized_answer ++ ['i', 'n', 'g']] ++
        (if normalized_answer.getLast? = some 'e' then
          [normalized_answer.dropLast ++ ['e', 'd'],
           normalized_answer.dropLast ++ ['i', 'n', 'g']]
         else [])
      else []
    if variants.any (fun v => containsSubstr normalized_fodder v) then ⟨false, none⟩
    else ⟨true, none⟩

/-- Cryptic abbreviations whitelisted by validate_anagram's dictionary pass. -/
def valid_abbreviations : List (List Char) :=
  ["n".toList, "s".toList, "e".toList, "w".toList, "l".toList, "r".toList,
   "u".toList, "o".toList, "er".toList, "ed".toList, "re".toList]

/-- validate_anagram of mechanic.py.  `d` models the module-level
    `_enchant_dict`: `none` when the enchant backend is unavailable, in which
    case the real-word pass over the fodder tokens is skipped entirely.
    The letter comparison sorts both normalized strings (Python `sorted`)
    and tests equality. -/
def validate_anagram (d : Option (List Char → Bool)) (fodder answer : List Char) : VRes :=
  let identity_check := check_identity_constraint fodder answer
  if identity_check.is_valid = false then identity_check
  else
    let dict_ok : Bool :=
      match d with
      | none => true
      | some dict =>
        ((splitWs (lowerStr fodder)).filter
          (fun w => !(decide (w.length ≤ 2) && valid_abbreviations.contains w)
                    && !(dict w))).isEmpty
    if dict_ok = false then ⟨false, none⟩
    else
      let f_letters := List.insertionSort (· ≤ ·) (normalize_text fodder)
      let a_letters := List.insertionSort (· ≤ ·) (normalize_text answer)
      if f_letters = a_letters then ⟨true, none⟩ else ⟨false, none⟩

/-- validate_hidden_word of mechanic.py: reject single-token fodder that IS
    the answer; reject the answer appearing as a complete whitespace token of
    the fodder; otherwise search for the normalized answer as a contiguous
    substring of the normalized fodder, reporting the first occurrence's
    0-indexed start and end. -/
def validate_hidden_word (fodder answer : List Char) : VRes :=
  let fodder_words := splitWs fodder
  if fodder_words.length = 1 ∧ normalize_text fodder = normalize_text answer then
    ⟨false, none⟩
  else
    let answer_lower := lowerStr answer
    let fodder_words_lower := fodder_words.map lowerStr
    if answer_lower ∈ fodder_words_lower then ⟨false, none⟩
    else
      match findSubstr (normalize_text fodder) (normalize_text answer) with
      | some start_pos =>
        ⟨true, some (start_pos, start_pos + (normalize_text answer).length)⟩
      | none => ⟨false, none⟩

/-- Wordplay-part fields of a clue record, src/auditor.py and src/mechanic.py
    read them out of the `wordplay_parts` mapping with empty-string defaults. -/
structure WordplayParts where
  fodder : List Char := []
  indicator : List Char := []
  mechanism : List Char := []

/-- A clue record as consumed by the auditor: `clue_json` with its `answer`,
    `clue`, `definition`, `type` and `wordplay_parts` entries (absent entries
    default to the empty string, as with Python `dict.get`). -/
structure ClueRec where
  answer : List Char := []
  clue : List Char := []
  definition : List Char := []
  type : List Char := []
  wordplay_parts : WordplayParts := {}

/-- DIRECTIONAL_BLOCKLIST of auditor.py: down-only indicator words. -/
def DIRECTIONAL_BLOCKLIST : List (List Char) :=
  ["rising".toList, "lifted".toList, "climbing".toList, "up".toList,
   "upwards".toList, "skyward".toList, "mounting".toList, "ascending".toList,
   "on".toList, "supports".toList, "overhead".toList, "over".toList,
   "underneath".toList, "atop".toList, "climbing up".toList, "going up".toList,
   "comes up".toList, "rises".toList, "lifts".toList, "climbs".toList]

/-- XimeneanAuditor._check_direction: lowercase the indicator field (only),
    and fail exactly when some blocklist term occurs in it as a whole word
    (word-boundary regex match).  Returns the `passed` flag; the feedback
    string is elided. -/
def check_direction (clue : ClueRec) : Bool :=
  let indicator := lowerStr clue.wordplay_parts.indicator
  !(DIRECTIONAL_BLOCKLIST.any (fun term => containsWholeWord indicator term))

/-- XimeneanAuditor.is_word.  `d` models `self.enchant_dict` (`none` when no
    dictionary backend is available).  Words shorter than 2 characters are
    rejected outright; with a dictionary the dictionary decides; otherwise
    the three gibberish patterns decide.  The first two source regexes are
    anchored with caret and dollar, so they reject only words consisting
    entirely of 5+ consonants resp. 4+ vowels; the third rejects any word with
    a character outside a-z after lowercasing.  (A dollar anchor would also
    match before a trailing newline, but such a word contains a non-a-z
    character and is rejected by the third pattern either way, so the final
    verdict is unaffected.) -/
def is_word (d : Option (List Char → Bool)) (word : List Char) : Bool :=
  if word.length < 2 then false
  else
    match d with
    | some dict => dict word
    | none =>
      let word_lower := lowerStr word
      if decide (5 ≤ word_lower.length) && word_lower.all isConsonantCh then false
      else if decide (4 ≤ word_lower.length) && word_lower.all isVowelCh then false
      else if word_lower.any (fun c => !isAsciiLowerCh c) then false
      else true

/-- The ten named check outcomes computed by XimeneanAuditor.audit_clue
    (Flags 1-10), in the keys of its `check_dict`.  The checks themselves are
    a mix of rule-based and LLM-delegated procedures; the scoring claims
    quantify over all outcome vectors, so the vector is taken as input here. -/
structure Checks where
  direction : Bool
  double_duty : Bool
  fairness : Bool
  identity : Bool
  fodder : Bool
  filler : Bool
  grammar : Bool
  narrative : Bool
  obscurity : Bool
  word_validity : Bool

/-- The `checks` list built by audit_clue, in source order. -/
def checksList (c : Checks) : List Bool :=
  [c.direction, c.double_duty, c.fairness, c.identity, c.fodder,
   c.filler, c.grammar, c.narrative, c.obscurity, c.word_validity]

/-- Python `len(re.findall(words-regex, clue_text))` in
    _calculate_ximenean_score: the regex picks out maximal a-z runs delimited
    by word boundaries, i.e. the maximal word-character runs consisting
    entirely of lowercase letters (the text has already been lowercased). -/
def clueWordCount (clue_text : List Char) : Nat :=
  ((runsBy isWordCh clue_text).filter (fun r => r.all isAsciiLowerCh)).length

/-- XimeneanAuditor._calculate_ximenean_score: start from 1.0, subtract the
    per-category penalties for failing checks (filler penalty graded by the
    clue's word count), clamp below at 0. -/
def calculate_ximenean_score (clue : ClueRec) (checks : Checks) : ℚ :=
  let score : ℚ := 1
  let score :=
    if checks.filler = false then
      let clue_words := clueWordCount (lowerStr clue.clue)
      if 10 < clue_words then score - 0.3
      else if 8 < clue_words then score - 0.2
      else score - 0.15
    else score
  let score := if checks.grammar = false then score - 0.3 else score
  let score := if checks.fodder = false then score - 0.4 else score
  let score := if checks.word_validity = false then score - 0.5 else score
  let score := if checks.obscurity = false then score - 0.2 else score
  let score := if checks.narrative = false then score - 0.25 else score
  max 0 score

/-- PRIORITY_ABBREVIATIONS of auditor.py.  The source writes a Python set
    literal with repeated elements (letters shared between the Roman-numeral,
    elements, directions, music, chess, titles, academic, units and
    single-letter groups); the set collapses them, and iteration in
    _calculate_difficulty_level visits each distinct member once, so the
    distinct members are listed here. -/
def PRIORITY_ABBREVIATIONS : List (List Char) :=
  ["I".toList, "V".toList, "X".toList, "L".toList, "C".toList, "D".toList,
   "M".toList, "XI".toList,
   "H".toList, "O".toList, "N".toList, "AU".toList, "AG".toList, "FE".toList,
   "PB".toList, "CU".toList,
   "S".toList, "E".toList, "W".toList, "R".toList,
   "P".toList, "F".toList, "PP".toList, "FF".toList,
   "K".toList, "Q".toList, "B".toList,
   "DR".toList, "MO".toList, "MP".toList, "QC".toList, "PM".toList,
   "BA".toList, "MA".toList, "BSC".toList,
   "T".toList, "G".toList, "OZ".toList, "LB".toList, "HR".toList, "MIN".toList,
   "A".toList, "U".toList, "Y".toList, "Z".toList]

/-- XimeneanAuditor._calculate_difficulty_level: start at 3, adjust by the
    five factors (type class, verbatim-definition obliqueness, priority
    abbreviations occurring as substrings of the uppercased fodder, clue word
    count, plus-separated fodder parts), clamp to 1..5.  Note
    `len(fodder.split(plus-sign))` equals one more than the number of plus
    signs in the fodder. -/
def calculate_difficulty_level (clue : ClueRec) : Int :=
  let difficulty : Int := 3
  let clue_type := lowerStr clue.type
  let definition := lowerStr clue.definition
  let clue_text := lowerStr clue.clue
  let fodder := upperStr clue.wordplay_parts.fodder
  let difficulty :=
    if clue_type = "hidden".toList ∨ clue_type = "homophone".toList then
      difficulty - 1
    else if clue_type = "container".toList ∨ clue_type = "double definition".toList then
      difficulty + 0
    else if clue_type = "reversal".toList ∨ clue_type = "charade".toList then
      difficulty + 1
    else difficulty
  let difficulty :=
    if containsSubstr clue_text definition then difficulty - 1 else difficulty + 1
  let priority_abbrev_count :=
    PRIORITY_ABBREVIATIONS.countP (fun abbr => containsSubstr fodder abbr)
  let difficulty := if 3 ≤ priority_abbrev_count then difficulty + 1 else difficulty
  let word_count := (splitWs clue_text).length
  let difficulty :=
    if word_count ≤ 5 then difficulty - 1
    else if 10 ≤ word_count then difficulty + 0
    else difficulty
  let fodder_parts_len := 1 + fodder.count '+'
  let difficulty := if 4 ≤ fodder_parts_len then difficulty + 1 else difficulty
  max 1 (min 5 difficulty)

/-- XimeneanAuditor._calculate_narrative_fidelity: start at 100.0, subtract
    the penalties for failing checks, apply the brevity bonus or verbosity
    penalty by word count, clamp to 0..100. -/
def calculate_narrative_fidelity (clue : ClueRec) (checks : Checks) : ℚ :=
  let fidelity : ℚ := 100
  let fidelity := if checks.narrative = false then fidelity - 40 else fidelity
  let fidelity := if checks.filler = false then fidelity - 20 else fidelity
  let fidelity := if checks.grammar = false then fidelity - 15 else fidelity
  let fidelity := if checks.double_duty = false then fidelity - 10 else fidelity
  let fidelity := if checks.obscurity = false then fidelity - 10 else fidelity
  let word_count := (splitWs clue.clue).length
  let fidelity :=
    if word_count ≤ 6 then fidelity + 5
    else if 12 ≤ word_count then fidelity - 10
    else fidelity
  max 0 (min 100 fidelity)

/-- The fields of AuditResult that the composite-scoring claims speak about;
    the per-check feedback strings and echoed flags are elided. -/
structure AuditResultR where
  passed : Bool
  fairness_score : ℚ
  ximenean_score : ℚ
  difficulty_level : Int
  narrative_fidelity : ℚ

/-- XimeneanAuditor.audit_clue, from the point where the ten check outcomes
    have been computed: build the `checks` list, set
    `fairness_score = sum(checks)/len(checks)` (Python sums booleans as 0/1),
    `passed = all(checks)`, and attach the three composite scores. -/
def audit_clue (clue : ClueRec) (checks : Checks) : AuditResultR :=
  let cl := checksList checks
  let fairness_score : ℚ :=
    ((cl.map (fun b => if b then (1 : ℚ) else 0)).sum) / (cl.length : ℚ)
  let overall_passed := cl.all (fun b => b)
  { passed := overall_passed
    fairness_score := fairness_score
    ximenean_score := calculate_ximenean_score clue checks
    difficulty_level := calculate_difficulty_level clue
    narrative_fidelity := calculate_narrative_fidelity clue checks }

/-- Count of passing checks among the ten named check outcomes. -/
def passedCount (c : Checks) : Nat :=
  (checksList c).countP (fun b => b)

/-- The end-to-end scenario clue record of the specification. -/
def scenarioClue : ClueRec :=
  { answer := "SILENT".toList
    clue := "Confused listen to be quiet (6)".toList
    definition := "be quiet".toList
    type := "Anagram".toList
    wordplay_parts :=
      { fodder := "listen".toList
        indicator := "confused".toList
        mechanism := "anagram of listen".toList } }

/-! Helper lemmas. -/

/-- Two lists of characters have equal insertion sorts exactly when they are
    equal as multisets: Python's sorted-letters comparison decides anagram
    equality. -/
theorem sortChars_eq_iff (l₁ l₂ : List Char) :
    List.insertionSort (· ≤ ·) l₁ = List.insertionSort (· ≤ ·) l₂ ↔
      (l₁ : Multiset Char) = (l₂ : Multiset Char) := by
  rw [Multiset.coe_eq_coe]
  constructor
  · intro h
    exact (List.perm_insertionSort (· ≤ ·) l₁).symm.trans
      (h ▸ List.perm_insertionSort (· ≤ ·) l₂)
  · intro h
    exact List.eq_of_perm_of_sorted
      ((List.perm_insertionSort (· ≤ ·) l₁).trans
        (h.trans (List.perm_insertionSort (· ≤ ·) l₂).symm))
      (List.sorted_insertionSort (· ≤ ·) l₁)
      (List.sorted_insertionSort (· ≤ ·) l₂)

/-- The empty needle occurs in every haystack, as with Python substring
    membership. -/
theorem containsSubstr_empty_needle (hay : List Char) :
    containsSubstr hay [] = true := by
  cases hay <;> simp [containsSubstr, startsWithL]

/-- C1: for every fodder string F and answer string A, the anagram validator
    (with no dictionary backend available, so the real-word pass is skipped)
    accepts exactly when the multiset of letters of the normalized fodder
    equals the multiset of letters of the normalized answer and the identity
    constraint passes. -/
theorem anagram_valid_iff_multiset_and_identity (F A : List Char) :
    (validate_anagram none F A).is_valid = true ↔
      ((normalize_text F : Multiset Char) = (normalize_text A : Multiset Char) ∧
       (check_identity_constraint F A).is_valid = true) := by
  cases h : (check_identity_constraint F A).is_valid with
  | false => simp [validate_anagram, h]
  | true =>
    by_cases hs :
        List.insertionSort (· ≤ ·) (normalize_text F) =
          List.insertionSort (· ≤ ·) (normalize_text A)
    · simp [validate_anagram, h, hs, (sortChars_eq_iff _ _).mp hs]
    · simp only [validate_anagram, h]
      simp [hs]
      exact fun hm => hs ((sortChars_eq_iff _ _).mpr (Multiset.coe_eq_coe.mpr hm))

/-- C10: when the answer normalizes to the empty string, the identity
    constraint is violated (the empty string occurs in every fodder), hence
    the anagram validator rejects for every fodder and in every dictionary
    configuration. -/
theorem identity_fails_on_empty_normalized_answer
    (d : Option (List Char → Bool)) (F A : List Char)
    (h : normalize_text A = []) :
    (check_identity_constraint F A).is_valid = false ∧
    (validate_anagram d F A).is_valid = false := by
  have hid : (check_identity_constraint F A).is_valid = false := by
    simp [check_identity_constraint, h, containsSubstr_empty_needle]
  refine ⟨hid, ?_⟩
  simp [validate_anagram, hid]

/-- Witness for C10 at the concrete answer "2 + 4!" (no letters, so its
    normalization is empty) and fodder "listen". -/
theorem identity_fails_on_empty_normalized_answer_witness :
    (check_identity_constraint ("listen".toList) ("2 + 4!".toList)).is_valid = false ∧
    (validate_anagram none ("listen".toList) ("2 + 4!".toList)).is_valid = false :=
  identity_fails_on_empty_normalized_answer none
    ("listen".toList) ("2 + 4!".toList) (by decide)

/-- Summing the 0/1 indicator images of a list of booleans (Python's
    `sum(checks)`) counts the `true` entries. -/
theorem sum_boolIndicator (l : List Bool) :
    ((l.map (fun b => if b then (1 : ℚ) else 0)).sum) =
      (l.countP (fun b => b) : ℚ) := by
  induction l with
  | nil => simp
  | cons b t ih => cases b <;> simp [List.countP_cons, ih] <;> (try ring)

/-- C2: audit_clue's fairness score is exactly the count of passing checks
    among the ten named checks divided by 10, and its overall pass flag is the
    conjunction of the ten check flags; with every check passing the score is
    exactly 1 and the clue passes. -/
theorem audit_clue_fairness_and_passed (clue : ClueRec) (checks : Checks) :
    (audit_clue clue checks).fairness_score = (passedCount checks : ℚ) / 10 ∧
    ((audit_clue clue checks).passed = true ↔
      (checks.direction = true ∧ checks.double_duty = true ∧
       checks.fairness = true ∧ checks.identity = true ∧ checks.fodder = true ∧
       checks.filler = true ∧ checks.grammar = true ∧ checks.narrative = true ∧
       checks.obscurity = true ∧ checks.word_validity = true)) ∧
    (audit_clue clue
        ⟨true, true, true, true, true, true, true, true, true, true⟩).fairness_score = 1 ∧
    (audit_clue clue
        ⟨true, true, true, true, true, true, true, true, true, true⟩).passed = true := by
  refine ⟨?_, ?_, ?_, ?_⟩
  · simp only [audit_clue, passedCount, checksList]
    rw [sum_boolIndicator]
    norm_num
  · simp [audit_clue, checksList, and_assoc]
  · norm_num [audit_clue, checksList]
  · simp [audit_clue, checksList]

/-- C3: the Ximenean score always lies in the unit interval, and a clue
    failing every penalized category (filler, grammar, fodder integrity, word
    validity, obscurity, narrative) scores exactly 0 regardless of the other
    flags and of the clue text. -/
theorem ximenean_score_bounds_and_floor (clue : ClueRec) (checks : Checks) :
    0 ≤ calculate_ximenean_score clue checks ∧
    calculate_ximenean_score clue checks ≤ 1 ∧
    calculate_ximenean_score clue
      { checks with filler := false, grammar := false, fodder := false,
                    word_validity := false, obscurity := false,
                    narrative := false } = 0 := by
  refine ⟨le_max_left 0 _, ?_, ?_⟩
  · rcases checks with ⟨cd, cdd, cf, ci, cfo, cfi, cg, cn, co, cw⟩
    simp only [calculate_ximenean_score]
    cases cfi <;> cases cg <;> cases cfo <;> cases cw <;> cases co <;> cases cn <;>
      simp [max_le_iff] <;> (try split_ifs) <;> norm_num
  · simp only [calculate_ximenean_score]
    simp <;> (try split_ifs) <;> simp [max_eq_left_iff] <;> norm_num

/-- C8: the narrative fidelity is always clamped into the interval from 0 to
    100, whatever the check outcomes and the clue text. -/
theorem narrative_fidelity_in_range (clue : ClueRec) (checks : Checks) :
    0 ≤ calculate_narrative_fidelity clue checks ∧
    calculate_narrative_fidelity clue checks ≤ 100 :=
  ⟨le_max_left 0 _, max_le (by norm_num) (min_le_left 100 _)⟩

/-- C9: the Ximenean score is computed only from the filler, grammar,
    fodder-presence, word-validity, obscurity and narrative flags (and the
    clue record); two outcome vectors agreeing on those six flags give the
    same score, so the direction, double-duty, indicator-fairness and
    identity flags never influence it. -/
theorem ximenean_score_noninterference (clue : ClueRec) (c₁ c₂ : Checks)
    (hfi : c₁.filler = c₂.filler) (hg : c₁.grammar = c₂.grammar)
    (hfo : c₁.fodder = c₂.fodder) (hw : c₁.word_validity = c₂.word_validity)
    (ho : c₁.obscurity = c₂.obscurity) (hn : c₁.narrative = c₂.narrative) :
    calculate_ximenean_score clue c₁ = calculate_ximenean_score clue c₂ := by
  simp only [calculate_ximenean_score, hfi, hg, hfo, hw, ho, hn]

/-- Witness for C9: flipping exactly the four non-penalized flags (direction,
    double duty, indicator fairness, identity) leaves the score unchanged. -/
theorem ximenean_score_noninterference_witness :
    calculate_ximenean_score {}
        ⟨false, false, false, false, true, true, true, true, true, true⟩ =
      calculate_ximenean_score {}
        ⟨true, true, true, true, true, true, true, true, true, true⟩ :=
  ximenean_score_noninterference {} _ _ rfl rfl rfl rfl rfl rfl

/-- C4 counterexample: on the end-to-end scenario clue the computed
    difficulty level is not 4 as the specification expects. -/
theorem difficulty_scenario_counterexample :
    calculate_difficulty_level scenarioClue ≠ 4 := by decide

/-- C4 amended: the scenario clue's difficulty level is 3.  The claimed plus
    one for obliqueness does not occur because the definition does appear
    verbatim in the lowercased clue text (contributing minus one), and the
    omitted abbreviation factor contributes plus one because at least three
    priority abbreviations occur as substrings of the uppercased fodder. -/
theorem difficulty_scenario_eq_three :
    calculate_difficulty_level scenarioClue = 3 ∧
    containsSubstr (lowerStr scenarioClue.clue) (lowerStr scenarioClue.definition) = true ∧
    3 ≤ PRIORITY_ABBREVIATIONS.countP
        (fun abbr => containsSubstr (upperStr scenarioClue.wordplay_parts.fodder) abbr) := by
  refine ⟨by decide, by decide, by decide⟩

/-- C7: the direction check depends only on the indicator field (so a
    blocklisted word in the fodder alone never fails it); it fails on an
    indicator containing a blocklisted word as a whole word, and passes on an
    indicator that contains a blocklisted word only as a substring of a
    longer word. -/
theorem check_direction_scans_indicator_only :
    (∀ r₁ r₂ : ClueRec,
        r₁.wordplay_parts.indicator = r₂.wordplay_parts.indicator →
        check_direction r₁ = check_direction r₂) ∧
    (∀ r : ClueRec, r.wordplay_parts.indicator = "scrambled".toList →
        check_direction r = true) ∧
    (∀ r : ClueRec, r.wordplay_parts.indicator = "going up".toList →
        check_direction r = false) ∧
    (∀ r : ClueRec, r.wordplay_parts.indicator = "confused".toList →
        check_direction r = true) := by
  refine ⟨?_, ?_, ?_, ?_⟩
  · intro r₁ r₂ h
    simp only [check_direction, h]
  · intro r h
    simp only [check_direction, h]
    decide
  · intro r h
    simp only [check_direction, h]
    decide
  · intro r h
    simp only [check_direction, h]
    decide

/-- Witness for C7: fodder "cups up" with indicator "scrambled" passes,
    indicator "going up" fails, and indicator "confused" passes (the
    blocklisted word "on" inside it does not trigger). -/
theorem check_direction_scans_indicator_only_witness :
    check_direction
        { wordplay_parts :=
            { fodder := "cups up".toList, indicator := "scrambled".toList } } = true ∧
    check_direction
        { wordplay_parts :=
            { fodder := "cups up".toList, indicator := "going up".toList } } = false ∧
    check_direction
        { wordplay_parts := { indicator := "confused".toList } } = true :=
  ⟨check_direction_scans_indicator_only.2.1 _ rfl,
   check_direction_scans_indicator_only.2.2.1 _ rfl,
   check_direction_scans_indicator_only.2.2.2 _ rfl⟩

/-- C6 counterexample: the word "bcdfgha" is at least 2 characters long and
    contains the run "bcdfg" of 5 consecutive consonants, yet the fallback
    accepts it -- the gibberish regexes are anchored to the whole word, so
    merely containing such a run does not reject. -/
theorem is_word_contains_consonants_counterexample :
    is_word none ("bcdfgha".toList) = true ∧
    2 ≤ ("bcdfgha".toList).length ∧
    containsSubstr ("bcdfgha".toList) ("bcdfg".toList) = true ∧
    ("bcdfg".toList).all isConsonantCh = true ∧
    ("bcdfg".toList).length = 5 := by
  refine ⟨by decide, by decide, by decide, by decide, by decide⟩

/-- C6 amended: with no dictionary backend, the fallback rejects exactly the
    words shorter than 2 characters, the words consisting entirely of 5 or
    more consonants, the words consisting entirely of 4 or more vowels, and
    the words containing a character outside a-z after lowercasing; every
    other word is accepted. -/
theorem is_word_fallback_characterization (w : List Char) :
    is_word none w = false ↔
      (w.length < 2 ∨
       (5 ≤ w.length ∧ (lowerStr w).all isConsonantCh = true) ∨
       (4 ≤ w.length ∧ (lowerStr w).all isVowelCh = true) ∨
       (lowerStr w).any (fun c => !isAsciiLowerCh c) = true) := by
  have hlen : (lowerStr w).length = w.length := List.length_map w toLowerCh
  simp only [is_word, hlen]
  split_ifs with h1 h2 h3 h4 <;> simp_all

/-- A successful findSubstr result is a match position, and the first one:
    every smaller index fails to match. -/
theorem findSubstr_some (hay needle : List Char) :
    ∀ i, findSubstr hay needle = some i →
      startsWithL (List.drop i hay) needle = true ∧
      ∀ j, j < i → startsWithL (List.drop j hay) needle = false := by
  induction hay with
  | nil =>
    intro i h
    simp only [findSubstr] at h
    by_cases hs : startsWithL [] needle = true
    · rw [if_pos hs] at h
      cases h
      exact ⟨hs, fun j hj => absurd hj (Nat.not_lt_zero j)⟩
    · rw [if_neg hs] at h
      cases h
  | cons c t ih =>
    intro i h
    simp only [findSubstr] at h
    by_cases hs : startsWithL (c :: t) needle = true
    · rw [if_pos hs] at h
      cases h
      exact ⟨hs, fun j hj => absurd hj (Nat.not_lt_zero j)⟩
    · rw [if_neg hs] at h
      obtain ⟨i', hi', rfl⟩ := Option.map_eq_some'.mp h
      obtain ⟨h1, h2⟩ := ih i' hi'
      refine ⟨by simpa using h1, ?_⟩
      intro j hj
      cases j with
      | zero => simpa using Bool.of_not_eq_true hs
      | succ j' =>
        rw [List.drop_succ_cons]
        exact h2 j' (Nat.lt_of_succ_lt_succ hj)

/-- findSubstr succeeds exactly when some index matches the needle. -/
theorem findSubstr_isSome_iff (hay needle : List Char) :
    (findSubstr hay needle).isSome = true ↔
      ∃ i, startsWithL (List.drop i hay) needle = true := by
  induction hay with
  | nil =>
    simp only [findSubstr]
    by_cases hs : startsWithL [] needle = true
    · simp only [if_pos hs, Option.isSome_some, true_iff]
      exact ⟨0, by simpa using hs⟩
    · simp only [if_neg hs, Option.isSome_none, Bool.false_eq_true, false_iff,
        not_exists]
      intro i
      simpa [List.drop_nil] using hs
  | cons c t ih =>
    simp only [findSubstr]
    by_cases hs : startsWithL (c :: t) needle = true
    · simp only [if_pos hs, Option.isSome_some, true_iff]
      exact ⟨0, by simpa using hs⟩
    · rw [if_neg hs]
      rw [Option.isSome_map']
      rw [ih]
      constructor
      · rintro ⟨i, hi⟩
        exact ⟨i + 1, by simpa [List.drop_succ_cons] using hi⟩
      · rintro ⟨i, hi⟩
        cases i with
        | zero => exact absurd (by simpa using hi) hs
        | succ i' => exact ⟨i', by simpa [List.drop_succ_cons] using hi⟩

/-- C5: the hidden-word validator accepts exactly when the fodder is not a
    single token normalizing to the answer, the lowercased answer is not a
    complete whitespace token of the fodder, and the normalized answer
    matches at some index of the normalized fodder; and any reported position
    is the first matching index together with its end offset. -/
theorem hidden_word_characterization (F A : List Char) :
    ((validate_hidden_word F A).is_valid = true ↔
      (¬((splitWs F).length = 1 ∧ normalize_text F = normalize_text A) ∧
       lowerStr A ∉ (splitWs F).map lowerStr ∧
       ∃ i, startsWithL (List.drop i (normalize_text F)) (normalize_text A) = true)) ∧
    (∀ i e, (validate_hidden_word F A).position = some (i, e) →
      (startsWithL (List.drop i (normalize_text F)) (normalize_text A) = true ∧
       (∀ j, j < i →
         startsWithL (List.drop j (normalize_text F)) (normalize_text A) = false) ∧
       e = i + (normalize_text A).length)) := by
  by_cases h1 : (splitWs F).length = 1 ∧ normalize_text F = normalize_text A
  · constructor
    · simp [validate_hidden_word, h1]
    · intro i e h
      simp [validate_hidden_word, h1] at h
  · by_cases h2 : lowerStr A ∈ (splitWs F).map lowerStr
    · constructor
      · simp [validate_hidden_word, h1, h2]
      · intro i e h
        simp [validate_hidden_word, h1, h2] at h
    · cases hf : findSubstr (normalize_text F) (normalize_text A) with
      | none =>
        have hnone : ¬∃ i,
            startsWithL (List.drop i (normalize_text F)) (normalize_text A) = true := by
          rw [← findSubstr_isSome_iff, hf]
          simp
        constructor
        · simp [validate_hidden_word, h1, h2, hf, hnone]
        · intro i e h
          simp [validate_hidden_word, h1, h2, hf] at h
      | some i0 =>
        obtain ⟨hm, hleast⟩ := findSubstr_some _ _ i0 hf
        constructor
        · simp only [validate_hidden_word, if_neg h1, if_neg h2, hf]
          simp only [true_iff]
          exact ⟨h1, h2, ⟨i0, hm⟩⟩
        · intro i e h
          simp only [validate_hidden_word, if_neg h1, if_neg h2, hf,
            Option.some.injEq, Prod.mk.injEq] at h
          obtain ⟨rfl, rfl⟩ := h
          exact ⟨hm, hleast, rfl⟩

/-- Witness for C5 on the concrete instance of the specification: SENT is
    hidden in "tales entered" at positions 4 to 8 of the normalization. -/
theorem hidden_word_characterization_witness :
    (validate_hidden_word ("tales entered".toList) ("SENT".toList)).is_valid = true ∧
    (validate_hidden_word ("tales entered".toList) ("SENT".toList)).position =
      some (4, 8) :=
  ⟨(hidden_word_characterization ("tales entered".toList) ("SENT".toList)).1.mpr
      ⟨by decide, by decide, ⟨4, by decide⟩⟩,
   by decide⟩

end ClueFactory
